import Mathlib

/-!
Verification of the CodeJudge core against its specification.

The definitions below are shallow embeddings of the repository's code:

* `rtrimL` / `rtrimS`, `determine_verdict`   — `judge-service/modern_main.cpp`
* `verdict_from_output`, `run_code`          — `judge/main_nossl.cpp`
* `SecureSandbox.execute`                    — `judge/sandbox.cpp`

Machine integers are modelled as `Int`/`Nat`; strings of the C++/Go code
are Lean `String`s (byte-level text is a `List Nat` where it matters).
-/

namespace CodeJudge

/-- The whitespace characters stripped by the verdict normalizers:
space, newline, carriage return, tab (the C++ set `" \n\r\t"`). -/
def isJudgeWS (c : Char) : Bool :=
  c = ' ' || c = '\n' || c = '\r' || c = '\t'

/-- Right trim on character lists: drop trailing judge whitespace.
Embeds `rtrim_copy` of `main_nossl.cpp` and the
`erase(find_last_not_of(" \n\r\t") + 1)` idiom of `modern_main.cpp`. -/
def rtrimL (s : List Char) : List Char :=
  (s.reverse.dropWhile isJudgeWS).reverse

/-- Right trim on strings. -/
def rtrimS (s : String) : String :=
  ⟨rtrimL s.data⟩

/-- Result record of `SecureSandbox::execute` (`sandbox.h` / `sandbox.cpp`).
`SandboxResult result = {};` zero-initializes every field. -/
structure SandboxResult where
  exit_code : Int := 0
  timeout : Bool := false
  memory_exceeded : Bool := false
  signal_killed : Bool := false
  signal : Int := 0
  output : String := ""
  error : String := ""
deriving Repr, DecidableEq

/-- `ModernJudgeService::determine_verdict` of `modern_main.cpp`. -/
def determine_verdict (result : SandboxResult) (expected_output : String) : String :=
  if result.timeout then "Time Limit Exceeded"
  else if result.memory_exceeded then "Memory Limit Exceeded"
  else if result.signal_killed ∨ result.exit_code ≠ 0 then "Runtime Error"
  else if rtrimS result.output = rtrimS expected_output then "Accepted"
  else "Wrong Answer"

/-- How the child process ended, as seen by `waitpid`. -/
inductive ChildStatus where
  | exited (code : Int)
  | signaled (sig : Int)
deriving Repr, DecidableEq

/-- Linux signal number of SIGXCPU. -/
def SIGXCPU : Int := 24

/-- Environment outcome of spawning the child in `run_code`
(`main_nossl.cpp`): pipe creation can fail, fork can fail, or the
child runs to a wait status with captured stdout. -/
inductive RunOutcome where
  | pipeFail
  | forkFail
  | ran (status : ChildStatus) (out : String)
deriving Repr, DecidableEq

/-- `run_code` of `main_nossl.cpp`, as a function of the spawn outcome:
signal kill maps to the sentinel strings `TIME_LIMIT_EXCEEDED` (SIGXCPU)
or `RUNTIME_ERROR`; normal exit 0 yields the captured stdout; non-zero
exit yields `RUNTIME_ERROR`; pipe or fork failure yields `JUDGE_ERROR`. -/
def run_code : RunOutcome → String
  | .pipeFail => "JUDGE_ERROR"
  | .forkFail => "JUDGE_ERROR"
  | .ran (.signaled sig) _ =>
      if sig = SIGXCPU then "TIME_LIMIT_EXCEEDED" else "RUNTIME_ERROR"
  | .ran (.exited code) out =>
      if code = 0 then out else "RUNTIME_ERROR"

/-- `verdict_from_output` of `main_nossl.cpp`. -/
def verdict_from_output (run_out expected : String) : String :=
  if run_out = "TIME_LIMIT_EXCEEDED" then "Time Limit Exceeded"
  else if run_out = "RUNTIME_ERROR" ∨ run_out = "JUDGE_ERROR" then "Runtime Error"
  else if rtrimS run_out = rtrimS expected then "Accepted"
  else "Wrong Answer"

/-- Environment outcome of spawning the child in `SecureSandbox::execute`
(`sandbox.cpp`): with captured stdout and stderr. -/
inductive SpawnOutcome where
  | pipeFail
  | forkFail
  | ran (status : ChildStatus) (out err : String)
deriving Repr, DecidableEq

/-- `SecureSandbox::execute` of `sandbox.cpp`, as a function of the spawn
outcome. The result starts zero-initialized; pipe or fork failure sets
`exit_code = -1`; a signalled child sets `signal_killed`, records the
signal and sets `timeout` exactly for SIGXCPU; a normally exited child
records its exit code. No branch assigns `memory_exceeded`. -/
def SecureSandbox.execute : SpawnOutcome → SandboxResult
  | .pipeFail => { exit_code := -1 }
  | .forkFail => { exit_code := -1 }
  | .ran (.signaled sig) out err =>
      { signal_killed := true, signal := sig,
        timeout := decide (sig = SIGXCPU), output := out, error := err }
  | .ran (.exited code) out err =>
      { exit_code := code, output := out, error := err }

/- Helper lemmas about the right-trim normalization. -/

theorem takeWhile_all_true {p : Char → Bool} {l : List Char} :
    ∀ c ∈ l.takeWhile p, p c = true := by
  induction l with
  | nil => intro c hc; simp [List.takeWhile] at hc
  | cons x xs ih =>
      intro c hc
      by_cases hx : p x
      · rw [List.takeWhile_cons_of_pos hx] at hc
        rcases List.mem_cons.mp hc with hc | hc
        · simpa [hc] using hx
        · exact ih c hc
      · rw [List.takeWhile_cons_of_neg hx] at hc
        simp at hc

theorem dropWhile_head_false {p : Char → Bool} {l : List Char} {c : Char} :
    (l.dropWhile p).head? = some c → p c = false := by
  induction l with
  | nil => intro h; simp [List.dropWhile] at h
  | cons x xs ih =>
      intro h
      by_cases hx : p x
      · rw [List.dropWhile_cons_of_pos hx] at h
        exact ih h
      · rw [List.dropWhile_cons_of_neg hx] at h
        simp at h
        simp [← h]
        simpa using hx

/-- `rtrimL` only removes characters from the right: the input is the
output followed by a purely-whitespace tail. -/
theorem rtrimL_split (l : List Char) :
    ∃ t, l = rtrimL l ++ t ∧ ∀ c ∈ t, isJudgeWS c = true := by
  refine ⟨(l.reverse.takeWhile isJudgeWS).reverse, ?_, ?_⟩
  · calc l = l.reverse.reverse := (l.reverse_reverse).symm
    _ = (l.reverse.takeWhile isJudgeWS ++ l.reverse.dropWhile isJudgeWS).reverse := by
          rw [List.takeWhile_append_dropWhile]
    _ = (l.reverse.dropWhile isJudgeWS).reverse ++ (l.reverse.takeWhile isJudgeWS).reverse := by
          rw [List.reverse_append]
    _ = rtrimL l ++ (l.reverse.takeWhile isJudgeWS).reverse := rfl
  · intro c hc
    rw [List.mem_reverse] at hc
    exact takeWhile_all_true c hc

/-- The result of `rtrimL` does not end in whitespace. -/
theorem rtrimL_getLast_not_ws {l : List Char} {c : Char} :
    (rtrimL l).getLast? = some c → isJudgeWS c = false := by
  intro h
  rw [rtrimL, List.getLast?_reverse] at h
  exact dropWhile_head_false h

/-- Claim C1: the verdict classifier returns Time Limit Exceeded when
`timeout` is set; otherwise Memory Limit Exceeded when `memory_exceeded`
is set; otherwise Runtime Error when the child was signal-killed or
exited non-zero; otherwise it strips trailing whitespace from the right
of both captured stdout and expected output, altering nothing else, and
returns Accepted exactly when the normalized strings are equal, else
Wrong Answer. -/
theorem C1_verdict_classifier (r : SandboxResult) (e : String) :
    (r.timeout = true → determine_verdict r e = "Time Limit Exceeded") ∧
    (r.timeout = false → r.memory_exceeded = true →
      determine_verdict r e = "Memory Limit Exceeded") ∧
    (r.timeout = false → r.memory_exceeded = false →
      (r.signal_killed = true ∨ r.exit_code ≠ 0) →
      determine_verdict r e = "Runtime Error") ∧
    (r.timeout = false → r.memory_exceeded = false → r.signal_killed = false →
      r.exit_code = 0 →
      ((determine_verdict r e = "Accepted" ↔ rtrimS r.output = rtrimS e) ∧
       (rtrimS r.output ≠ rtrimS e → determine_verdict r e = "Wrong Answer"))) ∧
    (∃ t, r.output.data = (rtrimS r.output).data ++ t ∧ ∀ c ∈ t, isJudgeWS c = true) ∧
    (∀ c, (rtrimS r.output).data.getLast? = some c → isJudgeWS c = false) ∧
    (∃ t, e.data = (rtrimS e).data ++ t ∧ ∀ c ∈ t, isJudgeWS c = true) ∧
    (∀ c, (rtrimS e).data.getLast? = some c → isJudgeWS c = false) := by
  refine ⟨?_, ?_, ?_, ?_, ?_, ?_, ?_, ?_⟩
  · intro ht; simp [determine_verdict, ht]
  · intro ht hm; simp [determine_verdict, ht, hm]
  · intro ht hm h
    simp only [determine_verdict, ht, hm, Bool.false_eq_true, if_false]
    rw [if_pos h]
  · intro ht hm hs hx
    have hd : determine_verdict r e =
        if rtrimS r.output = rtrimS e then "Accepted" else "Wrong Answer" := by
      simp [determine_verdict, ht, hm, hs, hx]
    by_cases hq : rtrimS r.output = rtrimS e
    · rw [hd, if_pos hq]
      exact ⟨by simp [hq], fun hne => absurd hq hne⟩
    · rw [hd, if_neg hq]
      refine ⟨?_, fun _ => rfl⟩
      constructor
      · intro hwa; exact absurd hwa (by decide)
      · intro hc; exact absurd hc hq
  · simpa [rtrimS] using rtrimL_split r.output.data
  · intro c hc; exact rtrimL_getLast_not_ws hc
  · simpa [rtrimS] using rtrimL_split e.data
  · intro c hc; exact rtrimL_getLast_not_ws hc

/-- Witness for C1 at a concrete run result. -/
theorem C1_verdict_classifier_witness :
    determine_verdict { timeout := true } "" = "Time Limit Exceeded" :=
  (C1_verdict_classifier { timeout := true } "").1 rfl

/-- Claim C9: the judge encodes run outcomes in-band as stdout sentinel
strings: a child that exits normally with status 0 and whose captured
stdout is exactly `TIME_LIMIT_EXCEEDED` is classified Time Limit
Exceeded, and exactly `RUNTIME_ERROR` or `JUDGE_ERROR` is classified
Runtime Error; in particular there is a pair where the program's stdout
equals the expected output yet the verdict is not Accepted. -/
theorem C9_sentinel_strings (e : String) :
    verdict_from_output (run_code (.ran (.exited 0) "TIME_LIMIT_EXCEEDED")) e
      = "Time Limit Exceeded" ∧
    verdict_from_output (run_code (.ran (.exited 0) "RUNTIME_ERROR")) e
      = "Runtime Error" ∧
    verdict_from_output (run_code (.ran (.exited 0) "JUDGE_ERROR")) e
      = "Runtime Error" ∧
    ∃ out exp : String, out = exp ∧
      verdict_from_output (run_code (.ran (.exited 0) out)) exp ≠ "Accepted" := by
  refine ⟨?_, ?_, ?_, ⟨"TIME_LIMIT_EXCEEDED", "TIME_LIMIT_EXCEEDED", rfl, ?_⟩⟩
  · simp [run_code, verdict_from_output]
  · simp [run_code, verdict_from_output]
  · simp [run_code, verdict_from_output]
  · simp [run_code, verdict_from_output]

/-- Claim C10: every `SecureSandbox::execute` result has
`memory_exceeded = false` (the field is zero-initialized and never
assigned), so the verdict classifier never returns Memory Limit Exceeded
for any run; address-space limit rejections surface as non-zero exit or
a (non-SIGXCPU) signal kill and are classified Runtime Error. -/
theorem C10_never_memory_limit (o : SpawnOutcome) (e : String) :
    (SecureSandbox.execute o).memory_exceeded = false ∧
    determine_verdict (SecureSandbox.execute o) e ≠ "Memory Limit Exceeded" ∧
    (∀ sig out err, o = .ran (.signaled sig) out err → sig ≠ SIGXCPU →
      determine_verdict (SecureSandbox.execute o) e = "Runtime Error") ∧
    (∀ code out err, o = .ran (.exited code) out err → code ≠ 0 →
      determine_verdict (SecureSandbox.execute o) e = "Runtime Error") := by
  rcases o with _ | _ | ⟨status, out, err⟩
  · refine ⟨rfl, by simp [SecureSandbox.execute, determine_verdict], ?_, ?_⟩
    · intro sig' out' err' h; cases h
    · intro code' out' err' h; cases h
  · refine ⟨rfl, by simp [SecureSandbox.execute, determine_verdict], ?_, ?_⟩
    · intro sig' out' err' h; cases h
    · intro code' out' err' h; cases h
  · rcases status with code | sig
    · refine ⟨rfl, ?_, ?_, ?_⟩
      · by_cases hc : code = 0
        · subst hc
          simp only [SecureSandbox.execute, determine_verdict]
          split_ifs <;> decide
        · simp [SecureSandbox.execute, determine_verdict, hc]
      · intro sig' out' err' h; cases h
      · intro code' out' err' h hc
        injection h with h1 h2 h3
        injection h1 with hcode
        subst hcode
        simp [SecureSandbox.execute, determine_verdict, hc]
    · refine ⟨rfl, ?_, ?_, ?_⟩
      · by_cases hs : sig = SIGXCPU
        · simp [SecureSandbox.execute, determine_verdict, hs]
        · simp [SecureSandbox.execute, determine_verdict, hs]
      · intro sig' out' err' h hs
        injection h with h1 h2 h3
        injection h1 with hsig
        subst hsig
        simp [SecureSandbox.execute, determine_verdict, hs]
      · intro code' out' err' h; cases h

/-- Witness for C10 at a concrete spawned outcome. -/
theorem C10_never_memory_limit_witness :
    determine_verdict (SecureSandbox.execute (.ran (.exited 1) "" "")) ""
      = "Runtime Error" :=
  (C10_never_memory_limit (.ran (.exited 1) "" "") "").2.2.2 1 "" "" rfl (by decide)

/-- A test-case row as fetched by the judge workers: `id`, `input`,
`expected_output` (`modern_main.cpp` `TestCase`; `main_nossl.cpp` drops
the id). The fetch queries (`SELECT ... FROM test_cases WHERE
problem_id = $1`) carry no ORDER BY, so a row list handed to the loop is
whatever order the database returned. -/
structure TC where
  id : Int
  input : String
  expected : String
deriving Repr, DecidableEq

/-- The judging loop shared by both workers: walk the fetched rows in
order, compute each verdict, stop at the first non-Accepted one.
Returns the final verdict together with the rows actually evaluated. -/
def judgeRun (vf : TC → String) : List TC → String × List TC
  | [] => ("Accepted", [])
  | tc :: rest =>
      if vf tc = "Accepted" then
        ((judgeRun vf rest).1, tc :: (judgeRun vf rest).2)
      else (vf tc, [tc])

/-- `ModernJudgeService::judge_submission` of `modern_main.cpp`:
compile, then run the loop; an empty test-case list falls through the
loop to `Accepted`. There is no zero-test-case check. -/
def judge_submission (compileOk : Bool) (runf : String → SpawnOutcome)
    (tcs : List TC) : String :=
  if compileOk then
    (judgeRun (fun tc =>
        determine_verdict (SecureSandbox.execute (runf tc.input)) tc.expected) tcs).1
  else "Compilation Error"

/-- Environment a single `process_submission` call of `main_nossl.cpp`
observes: whether the work directory could be created, the fetched
source row, whether the source file write and the compile succeeded,
the problem row, the fetched test cases, and the `run_code` result for
each test input. -/
structure NosslEnv where
  mkdirOk : Bool := true
  source : Option String := some ""
  writeOk : Bool := true
  compileOk : Bool := true
  problem : Option Int := some 0
  testCases : List TC := []
  run : String → String := fun _ => ""

/-- `process_submission` of `main_nossl.cpp`, as the verdict it writes:
guard chain for storage, source, write, compile and problem lookup, then
the explicit zero-test-case check, then the judging loop. -/
def process_submission (env : NosslEnv) : String :=
  if env.mkdirOk = false then "Judge Error: Storage unavailable"
  else
    match env.source with
    | none => "Judge Error: Source not found"
    | some _ =>
      if env.writeOk = false then "Judge Error: Write failure"
      else if env.compileOk = false then "Compilation Error"
      else
        match env.problem with
        | none => "Judge Error: Problem not found"
        | some _ =>
          if env.testCases = [] then "Judge Error: No test cases"
          else (judgeRun (fun tc =>
              verdict_from_output (env.run tc.input) tc.expected) env.testCases).1

/-- Counterexample to claim C2: the modern judge service
(`judge_submission`) has no zero-test-case check — with an empty
test-case list and a successful compile it returns Accepted, not
`Judge Error: No test cases`. -/
theorem C2_counterexample :
    judge_submission true (fun _ => SpawnOutcome.pipeFail) [] = "Accepted" ∧
    judge_submission true (fun _ => SpawnOutcome.pipeFail) []
      ≠ "Judge Error: No test cases" := by
  exact ⟨rfl, by decide⟩

/-- Claim C2 (amended): the legacy judge worker (`main_nossl.cpp`
`process_submission`) writes `Judge Error: No test cases` for a
zero-test-case submission once storage, source fetch, write, compile
and problem lookup succeed, and never writes Accepted for such a
submission; the modern judge service (`judge_submission`) instead
returns Accepted when compilation succeeds. -/
theorem C2_zero_test_cases (env : NosslEnv) (h : env.testCases = []) :
    (env.mkdirOk = true → env.source.isSome = true → env.writeOk = true →
      env.compileOk = true → env.problem.isSome = true →
      process_submission env = "Judge Error: No test cases") ∧
    process_submission env ≠ "Accepted" ∧
    (∀ runf : String → SpawnOutcome, judge_submission true runf [] = "Accepted") := by
  refine ⟨?_, ?_, fun _ => rfl⟩
  · intro hmk hsrc hw hcmp hp
    rcases Option.isSome_iff_exists.mp hsrc with ⟨s, hs⟩
    rcases Option.isSome_iff_exists.mp hp with ⟨p, hpp⟩
    simp [process_submission, hmk, hs, hw, hcmp, hpp, h]
  · intro hacc
    unfold process_submission at hacc
    rw [h] at hacc
    repeat' split at hacc
    all_goals first
      | exact absurd hacc (by decide)
      | exact absurd rfl (by assumption)

/-- Witness for C2 (amended) at the default environment, which has an
empty test-case list. -/
theorem C2_zero_test_cases_witness :
    process_submission {} = "Judge Error: No test cases" :=
  (C2_zero_test_cases {} rfl).1 rfl rfl rfl rfl rfl

/-- Claim C6 (amended): the judging loop evaluates the fetched rows in
the order the database returned them; the first row whose verdict is not
Accepted determines the final verdict and no later row is evaluated;
when every row's verdict is Accepted the final verdict is Accepted and
every row was evaluated. -/
theorem C6_first_failure_in_fetched_order (vf : TC → String) (rows : List TC) :
    ((∀ tc ∈ rows, vf tc = "Accepted") → judgeRun vf rows = ("Accepted", rows)) ∧
    (∀ pre tc post, rows = pre ++ tc :: post →
      (∀ p ∈ pre, vf p = "Accepted") → vf tc ≠ "Accepted" →
      judgeRun vf rows = (vf tc, pre ++ [tc])) := by
  constructor
  · intro hall
    induction rows with
    | nil => rfl
    | cons x xs ih =>
        have hx : vf x = "Accepted" := hall x (List.mem_cons_self x xs)
        have hxs := ih (fun tc htc => hall tc (List.mem_cons_of_mem x htc))
        simp [judgeRun, hx, hxs]
  · intro pre tc post hrows hpre htc
    subst hrows
    induction pre with
    | nil => simp [judgeRun, htc]
    | cons p pre' ih =>
        have hp : vf p = "Accepted" := hpre p (List.mem_cons_self p pre')
        have hrest := ih (fun q hq => hpre q (List.mem_cons_of_mem p hq))
        simp [judgeRun, hp, hrest]

/-- First test-case row of the C6 counterexample (smaller id; its run
prints `14` where `15` is expected, a Wrong Answer). -/
def tcC6A : TC := ⟨1, "i1", "15"⟩

/-- Second test-case row of the C6 counterexample (larger id; its run is
killed by SIGXCPU, a Time Limit Exceeded). -/
def tcC6B : TC := ⟨2, "i2", "3"⟩

/-- Sandbox behavior of the C6 counterexample submission on each input. -/
def runC6 : String → SpawnOutcome := fun i =>
  if i = "i1" then .ran (.exited 0) "14" "" else .ran (.signaled 24) "" ""

/-- Per-row verdict of the C6 counterexample under the modern judge. -/
def vfC6 : TC → String := fun tc =>
  determine_verdict (SecureSandbox.execute (runC6 tc.input)) tc.expected

/-- Counterexample to claim C6: the fetch query has no ORDER BY, so the
loop sees the rows in whatever order the database returns; on the same
two rows the verdict is Wrong Answer in id-ascending order but Time
Limit Exceeded in descending order, so the verdict is not determined by
the first failing test case in id-ascending order. -/
theorem C6_counterexample :
    tcC6A.id < tcC6B.id ∧
    (judgeRun vfC6 [tcC6A, tcC6B]).1 = "Wrong Answer" ∧
    (judgeRun vfC6 [tcC6B, tcC6A]).1 = "Time Limit Exceeded" ∧
    (judgeRun vfC6 [tcC6B, tcC6A]).1 ≠ (judgeRun vfC6 [tcC6A, tcC6B]).1 := by
  refine ⟨by decide, ?_, ?_, ?_⟩ <;> decide

/-- Witness for C6 (amended): on the descending-order row list the loop
stops at the first row and reports its verdict. -/
theorem C6_first_failure_witness :
    judgeRun vfC6 [tcC6B, tcC6A] = (vfC6 tcC6B, [tcC6B]) :=
  (C6_first_failure_in_fetched_order vfC6 [tcC6B, tcC6A]).2 [] tcC6B [tcC6A]
    rfl (by simp) (by decide)

/-- Observable state the intake touches: the submissions table rows (by
id), the materialized source files (by id), and the two work queues. -/
structure IntakeWorld where
  rows : List Int
  files : List Int
  judgeQ : List Int
  plagQ : List Int
deriving Repr, DecidableEq

/-- One step of a distributed transaction
(`DistributedTransactionStep` of `transaction_manager.go`): an execute
and a compensate action, each returning the new world and a success
flag. -/
structure SagaStep (W : Type) where
  execute : W → W × Bool
  compensate : W → W × Bool

/-- Compensation pass of `DistributedTransaction.compensate`: run the
compensations of the already-executed steps (passed most-recent-first),
ignoring individual compensation failures. -/
def compensateAll {W : Type} : List (SagaStep W) → W → W
  | [], w => w
  | s :: rest, w => compensateAll rest (s.compensate w).1

/-- Loop of `DistributedTransaction.Execute`: run the steps in order,
remembering the executed ones; on the first failing step compensate the
executed steps in reverse order and report failure. -/
def sagaGo {W : Type} : List (SagaStep W) → List (SagaStep W) → W → W × Bool
  | [], _, w => (w, true)
  | s :: rest, done, w =>
      let r := s.execute w
      if r.2 then sagaGo rest (s :: done) r.1
      else (compensateAll done r.1, false)

/-- `DistributedTransaction.Execute` of `transaction_manager.go`. -/
def sagaExec {W : Type} (steps : List (SagaStep W)) (w : W) : W × Bool :=
  sagaGo steps [] w

/-- Which of the intake's primitive operations succeed in this call:
the DB insert, the directory creation, the file write, the pipelined
queue push, and the two compensation actions. -/
structure SagaEnv where
  insertOk : Bool
  mkdirOk : Bool
  writeOk : Bool
  queueOk : Bool
  compDeleteOk : Bool
  compRemoveOk : Bool
deriving Repr, DecidableEq

/-- Step 1 `database_insert` of `createSubmissionTransactional`
(`monolith-service/handlers/submissions.go`): insert the row; the
compensation deletes it. -/
def stepInsert (env : SagaEnv) (newId : Int) : SagaStep IntakeWorld where
  execute w :=
    if env.insertOk then ({ w with rows := w.rows ++ [newId] }, true) else (w, false)
  compensate w :=
    if env.compDeleteOk then
      ({ w with rows := w.rows.filter (fun x => x != newId) }, true)
    else (w, false)

/-- Step 2 `file_storage`: create the storage directory and write
`<id>.cpp`; the compensation removes the file (when the path was set,
i.e. the directory creation had succeeded). -/
def stepFile (env : SagaEnv) (newId : Int) : SagaStep IntakeWorld where
  execute w :=
    if env.mkdirOk then
      if env.writeOk then ({ w with files := w.files ++ [newId] }, true)
      else (w, false)
    else (w, false)
  compensate w :=
    if env.mkdirOk then
      if env.compRemoveOk then
        ({ w with files := w.files.filter (fun x => x != newId) }, true)
      else (w, false)
    else (w, true)

/-- Step 3 `queue_operations`: atomically push the id onto both queues. -/
def stepQueues (env : SagaEnv) (newId : Int) : SagaStep IntakeWorld where
  execute w :=
    if env.queueOk then
      ({ w with judgeQ := newId :: w.judgeQ, plagQ := newId :: w.plagQ }, true)
    else (w, false)
  compensate w :=
    ({ w with judgeQ := w.judgeQ.filter (fun x => x != newId),
              plagQ := w.plagQ.filter (fun x => x != newId) }, true)

/-- `createSubmissionTransactional` of
`monolith-service/handlers/submissions.go`: the three-step saga. -/
def createSubmissionTransactional (env : SagaEnv) (newId : Int)
    (w : IntakeWorld) : IntakeWorld × Bool :=
  sagaExec [stepInsert env newId, stepFile env newId, stepQueues env newId] w

/-- `createSubmissionTransactional` of
`monolith/handlers/submissions.go` (the simple variant): the insert is
the only fatal step; the file write and the queue push are best effort,
their failures only logged. -/
def createSubmissionSimple (env : SagaEnv) (newId : Int)
    (w0 : IntakeWorld) : IntakeWorld × Bool :=
  if env.insertOk then
    let w1 := { w0 with rows := w0.rows ++ [newId] }
    let w2 := if env.mkdirOk && env.writeOk then
        { w1 with files := w1.files ++ [newId] } else w1
    let w3 := if env.queueOk then
        { w2 with judgeQ := newId :: w2.judgeQ, plagQ := newId :: w2.plagQ } else w2
    (w3, true)
  else (w0, false)

theorem filter_bne_append_self {l : List Int} {a : Int} (h : a ∉ l) :
    (l ++ [a]).filter (fun x => x != a) = l := by
  rw [List.filter_append]
  have h1 : List.filter (fun x => x != a) [a] = [] := by simp
  have h2 : List.filter (fun x => x != a) l = l := by
    rw [List.filter_eq_self]
    intro x hx
    simp only [bne_iff_ne, ne_eq]
    intro hxa
    exact h (hxa ▸ hx)
  rw [h1, h2, List.append_nil]

theorem filter_bne_self {l : List Int} {a : Int} (h : a ∉ l) :
    l.filter (fun x => x != a) = l := by
  rw [List.filter_eq_self]
  intro x hx
  simp only [bne_iff_ne, ne_eq]
  intro hxa
  exact h (hxa ▸ hx)

/-- Claim C3: for every call to the saga intake, either (a) it succeeds
and the submission row is persisted with its id on both work queues, or
(b) the call fails, and when the compensations succeed no observable
state change persists; the success flag depends only on the forward
steps — a compensation failure never changes the error the caller sees.
The intake succeeds exactly when insert, directory creation, file write
and queue push all succeed. -/
theorem C3_intake_atomic_or_compensated (env : SagaEnv) (newId : Int)
    (w0 : IntakeWorld) (hrows : newId ∉ w0.rows) (hfiles : newId ∉ w0.files) :
    ((createSubmissionTransactional env newId w0).2 =
        (env.insertOk && env.mkdirOk && env.writeOk && env.queueOk)) ∧
    ((createSubmissionTransactional env newId w0).2 = true →
      newId ∈ (createSubmissionTransactional env newId w0).1.rows ∧
      newId ∈ (createSubmissionTransactional env newId w0).1.judgeQ ∧
      newId ∈ (createSubmissionTransactional env newId w0).1.plagQ) ∧
    ((createSubmissionTransactional env newId w0).2 = false →
      env.compDeleteOk = true → env.compRemoveOk = true →
      (createSubmissionTransactional env newId w0).1 = w0) := by
  rcases env with ⟨ins, mk, wr, q, cd, cr⟩
  cases ins <;> cases mk <;> cases wr <;> cases q <;> cases cd <;> cases cr <;>
    simp [createSubmissionTransactional, sagaExec, sagaGo, compensateAll,
      stepInsert, stepFile, stepQueues, filter_bne_append_self hrows,
      filter_bne_self hrows, filter_bne_self hfiles]

/-- Witness for C3: a fully successful intake persists the row. -/
theorem C3_intake_atomic_witness :
    7 ∈ (createSubmissionTransactional ⟨true, true, true, true, true, true⟩ 7
        ⟨[], [], [], []⟩).1.rows :=
  ((C3_intake_atomic_or_compensated ⟨true, true, true, true, true, true⟩ 7
      ⟨[], [], [], []⟩ (by simp) (by simp)).2.1 (by decide)).1

/-- Counterexample to claim C8: in the saga intake of
`monolith-service/handlers/submissions.go` a failing file write is
fatal — the call fails and the inserted row is compensated away, so the
intake does not succeed and no id is returned. -/
theorem C8_counterexample :
    (createSubmissionTransactional ⟨true, true, false, true, true, true⟩ 7
        ⟨[], [], [], []⟩).2 = false ∧
    (createSubmissionTransactional ⟨true, true, false, true, true, true⟩ 7
        ⟨[], [], [], []⟩).1.rows = [] := by
  decide

/-- Claim C8 (amended): only the monolith variant
(`monolith/handlers/submissions.go`) treats the source-file write as
best effort — its intake succeeds with the row persisted whenever the
DB insert succeeds, even when the file write fails; in the
monolith-service saga variant a file-write failure is fatal and the
intake fails. -/
theorem C8_file_write_best_effort (env : SagaEnv) (newId : Int)
    (w0 : IntakeWorld) (hins : env.insertOk = true) (hwr : env.writeOk = false) :
    ((createSubmissionSimple env newId w0).2 = true ∧
      newId ∈ (createSubmissionSimple env newId w0).1.rows) ∧
    (createSubmissionTransactional env newId w0).2 = false := by
  rcases env with ⟨ins, mk, wr, q, cd, cr⟩
  cases ins <;> cases mk <;> cases wr <;> cases q <;> cases cd <;> cases cr <;>
    simp_all [createSubmissionSimple, createSubmissionTransactional, sagaExec,
      sagaGo, compensateAll, stepInsert, stepFile, stepQueues]

/-- Witness for C8 (amended) at a concrete environment where the file
write fails. -/
theorem C8_file_write_best_effort_witness :
    (createSubmissionSimple ⟨true, true, false, true, true, true⟩ 7
        ⟨[], [], [], []⟩).2 = true :=
  (C8_file_write_best_effort ⟨true, true, false, true, true, true⟩ 7
      ⟨[], [], [], []⟩ rfl rfl).1.1

/-- 2^64, the modulus of the Go `uint64` arithmetic. -/
def M64 : Nat := 2 ^ 64

/-- FNV-1a 64-bit offset basis. -/
def fnvOffset : Nat := 14695981039346656037

/-- FNV-1a 64-bit prime. -/
def fnvPrime : Nat := 1099511628211

/-- 64-bit FNV-1a over a byte (or word) sequence:
`hash ^= v; hash *= prime` per element, mod 2^64
(`hash/fnv` `New64a` as used in `fingerprint.go`). -/
def fnv1a64 (data : List Nat) : Nat :=
  data.foldl (fun h v => ((h ^^^ v) * fnvPrime) % M64) fnvOffset

/-- `kGramSize` of `fingerprint.go`. -/
def kGramSize : Nat := 7

/-- `windowSize` of `fingerprint.go`. -/
def windowSize : Nat := 10

/-- `getHashesOptimized` of `fingerprint.go`: if the text is shorter
than the k-gram size, return nil; otherwise hash every k-gram in
order. Text is the byte sequence of the normalized source. -/
def getHashesOptimized (text : List Nat) : List Nat :=
  if text.length < kGramSize then []
  else (List.range (text.length - kGramSize + 1)).map
    (fun i => fnv1a64 ((text.drop i).take kGramSize))

/-- The minimum search of the winnowing inner loop:
`minHash := window[0]; for j ... if window[j] < minHash`. -/
def minOf : List Nat → Nat
  | [] => 0
  | x :: xs => xs.foldl min x

/-- `winnowOptimized` of `fingerprint.go`: empty input gives the empty
set; fewer hashes than the window size gives the set of all of them;
otherwise the set of the minima of all sliding windows of size w. -/
def winnowOptimized (hashes : List Nat) : Finset Nat :=
  if hashes = [] then ∅
  else if hashes.length < windowSize then hashes.toFinset
  else ((List.range (hashes.length - windowSize + 1)).map
      (fun i => minOf ((hashes.drop i).take windowSize))).toFinset

theorem foldl_min_choice (xs : List Nat) :
    ∀ x : Nat, xs.foldl min x = x ∨ xs.foldl min x ∈ xs := by
  induction xs with
  | nil => intro x; left; rfl
  | cons y ys ih =>
      intro x
      rw [List.foldl_cons]
      rcases ih (min x y) with h | h
      · rcases le_total x y with hxy | hxy
        · left; rw [h, min_eq_left hxy]
        · right; rw [h, min_eq_right hxy]; exact List.mem_cons_self y ys
      · right; exact List.mem_cons_of_mem y h

theorem foldl_min_le (xs : List Nat) :
    ∀ x : Nat, xs.foldl min x ≤ x ∧ ∀ y ∈ xs, xs.foldl min x ≤ y := by
  induction xs with
  | nil => intro x; exact ⟨le_refl x, by simp⟩
  | cons y ys ih =>
      intro x
      rw [List.foldl_cons]
      rcases ih (min x y) with ⟨h1, h2⟩
      refine ⟨le_trans h1 (min_le_left x y), ?_⟩
      intro z hz
      rcases List.mem_cons.mp hz with hz | hz
      · subst hz; exact le_trans h1 (min_le_right x z)
      · exact h2 z hz

/-- `minOf` of a nonempty list is its least element. -/
theorem minOf_spec {l : List Nat} (h : l ≠ []) :
    minOf l ∈ l ∧ ∀ x ∈ l, minOf l ≤ x := by
  match l, h with
  | x :: xs, _ =>
    constructor
    · rcases foldl_min_choice xs x with hc | hc
      · rw [minOf, hc]; exact List.mem_cons_self x xs
      · exact List.mem_cons_of_mem x hc
    · intro y hy
      rcases List.mem_cons.mp hy with hy | hy
      · exact hy ▸ (foldl_min_le xs x).1
      · exact (foldl_min_le xs x).2 y hy

/-- Counterexample to claim C7: for a nonempty normalized text shorter
than the k-gram size the hash stage produces no hashes at all (Go
returns nil), not the hashes of what is present, so the fingerprint of
such a text is empty. -/
theorem C7_counterexample :
    ([97, 98, 99] : List Nat) ≠ [] ∧
    getHashesOptimized [97, 98, 99] = [] ∧
    winnowOptimized (getHashesOptimized [97, 98, 99]) = ∅ := by
  refine ⟨by decide, rfl, rfl⟩

/-- Claim C7 (amended): the fingerprint stage hashes each k-gram of
size k = 7 with 64-bit FNV-1a into an ordered sequence — producing the
empty sequence when the text is shorter than k — then collects into a
set the minimum hash of every sliding window of size w = 10 over that
sequence, including all hashes when the nonempty sequence is shorter
than w (and the empty set when it is empty). -/
theorem C7_fingerprint_stage (text : List Nat) (hashes : List Nat) :
    (text.length < kGramSize → getHashesOptimized text = []) ∧
    (kGramSize ≤ text.length →
      (getHashesOptimized text).length = text.length - kGramSize + 1 ∧
      (∀ i, i + kGramSize ≤ text.length →
        (getHashesOptimized text).getD i 0 =
          fnv1a64 ((text.drop i).take kGramSize))) ∧
    (winnowOptimized [] = ∅) ∧
    (hashes ≠ [] → hashes.length < windowSize →
      ∀ h : Nat, h ∈ winnowOptimized hashes ↔ h ∈ hashes) ∧
    (windowSize ≤ hashes.length →
      ∀ h : Nat, h ∈ winnowOptimized hashes ↔
        ∃ i, i + windowSize ≤ hashes.length ∧
          h = minOf ((hashes.drop i).take windowSize)) ∧
    (∀ w : List Nat, w ≠ [] → minOf w ∈ w ∧ ∀ x ∈ w, minOf w ≤ x) := by
  refine ⟨?_, ?_, rfl, ?_, ?_, fun w hw => minOf_spec hw⟩
  · intro h; simp [getHashesOptimized, h]
  · intro h
    have hnot : ¬ text.length < kGramSize := not_lt.mpr h
    constructor
    · simp [getHashesOptimized, hnot]
    · intro i hi
      have hlt : i < text.length - kGramSize + 1 := by omega
      simp [getHashesOptimized, hnot, List.getD_eq_getElem?_getD,
        List.getElem?_map, List.getElem?_range, hlt]
  · intro hne hlen h
    rw [winnowOptimized, if_neg hne, if_pos hlen]
    exact List.mem_toFinset
  · intro hlen h
    have hne : hashes ≠ [] := by
      intro hnil; rw [hnil] at hlen; simp [windowSize] at hlen
    have hnot : ¬ hashes.length < windowSize := not_lt.mpr hlen
    rw [winnowOptimized, if_neg hne, if_neg hnot]
    rw [List.mem_toFinset, List.mem_map]
    constructor
    · rintro ⟨i, hi, hmin⟩
      rw [List.mem_range] at hi
      exact ⟨i, by omega, hmin.symm⟩
    · rintro ⟨i, hi, hmin⟩
      exact ⟨i, List.mem_range.mpr (by omega), hmin.symm⟩

/-- Witness for C7 (amended): for a three-hash sequence (shorter than
the window) the fingerprint contains each hash. -/
theorem C7_fingerprint_stage_witness :
    3 ∈ winnowOptimized [5, 3, 9] :=
  ((C7_fingerprint_stage [] [5, 3, 9]).2.2.2.1 (by decide) (by decide) 3).mpr
    (by decide)

/-- `calculateAllSimilarityMetrics` of `fingerprint.go`, with the Go
`float64` arithmetic modelled exactly over ℚ: returns
(weighted, jaccard, containment A in B, containment B in A). -/
def calculateAllSimilarityMetrics (fpA fpB : Finset Nat) :
    ℚ × ℚ × ℚ × ℚ :=
  let lenA := fpA.card
  let lenB := fpB.card
  if lenA = 0 ∧ lenB = 0 then (1, 1, 1, 1)
  else if lenA = 0 ∨ lenB = 0 then (0, 0, 0, 0)
  else
    let inter := (fpA ∩ fpB).card
    let jaccard : ℚ := (inter : ℚ) / ((lenA : ℚ) + (lenB : ℚ) - (inter : ℚ))
    let containmentA : ℚ := (inter : ℚ) / (lenA : ℚ)
    let containmentB : ℚ := (inter : ℚ) / (lenB : ℚ)
    let maxContainment := max containmentA containmentB
    (0.4 * jaccard + 0.6 * maxContainment, jaccard, containmentA, containmentB)

/-- `const similarityThreshold = 0.75` of the plagiarism service main
(`src/unnamed/part_007`); a compile-time constant, not configurable. -/
def similarityThreshold : ℚ := 0.75

/-- A `plagiarism_reports` row, all four scores included. -/
structure PlagiarismReport where
  submission_a : Nat
  submission_b : Nat
  similarity : ℚ
  jaccard : ℚ
  containment_a_in_b : ℚ
  containment_b_in_a : ℚ
deriving Repr, DecidableEq

/-- Per-candidate body of `comprehensiveWorker`
(`src/unnamed/part_007`): compute all metrics, and when the weighted
similarity reaches the constant threshold build the report row with the
ordered id pair (swap so that a < b); otherwise store nothing. -/
def processCandidate (newID otherID : Nat) (newFp otherFp : Finset Nat) :
    Option PlagiarismReport :=
  let m := calculateAllSimilarityMetrics newFp otherFp
  if m.1 ≥ similarityThreshold then
    let subA := if newID > otherID then otherID else newID
    let subB := if newID > otherID then newID else otherID
    some { submission_a := subA, submission_b := subB, similarity := m.1,
           jaccard := m.2.1, containment_a_in_b := m.2.2.1,
           containment_b_in_a := m.2.2.2 }
  else none

/-- The `INSERT ... ON CONFLICT (submission_a, submission_b) DO UPDATE`
of `comprehensiveWorker` against the reports table: replace the row
with the same ordered pair, else append. -/
def upsertReport : List PlagiarismReport → PlagiarismReport →
    List PlagiarismReport
  | [], r => [r]
  | x :: rest, r =>
      if x.submission_a = r.submission_a ∧ x.submission_b = r.submission_b
      then r :: rest
      else x :: upsertReport rest r

/-- Modelled from the spec: the threshold the claim describes, read
from the `PLAGIARISM_THRESHOLD` environment variable with default
0.75. No code in the repository reads this variable. -/
def claimThreshold (env : Option ℚ) : ℚ :=
  match env with
  | some t => t
  | none => 0.75

/-- First fingerprint of the C5 counterexample. -/
def fpC5A : Finset Nat := {1, 2, 3}

/-- Second fingerprint of the C5 counterexample. -/
def fpC5B : Finset Nat := {1, 2, 4, 5}

/-- Counterexample to claim C5: with `PLAGIARISM_THRESHOLD` set to 0.5
the claim says a pair with blended similarity 0.56 ≥ 0.5 is stored, but
the worker compares against the hardcoded constant 0.75 and stores
nothing — the threshold is not configurable through the environment. -/
theorem C5_counterexample :
    claimThreshold (some 0.5) = 0.5 ∧
    (calculateAllSimilarityMetrics fpC5A fpC5B).1 = 0.56 ∧
    (calculateAllSimilarityMetrics fpC5A fpC5B).1 ≥ claimThreshold (some 0.5) ∧
    processCandidate 1 2 fpC5A fpC5B = none := by
  have hA : fpC5A.card = 3 := rfl
  have hB : fpC5B.card = 4 := rfl
  have hI : (fpC5A ∩ fpC5B).card = 2 := rfl
  have hmax : max ((2 : ℚ) / 3) ((2 : ℚ) / 4) = (2 : ℚ) / 3 := by
    rw [max_eq_left]; norm_num
  have hm : (calculateAllSimilarityMetrics fpC5A fpC5B).1 = 0.56 := by
    simp only [calculateAllSimilarityMetrics, hA, hB, hI]
    norm_num [hmax]
  refine ⟨rfl, hm, ?_, ?_⟩
  · rw [hm]; norm_num [claimThreshold]
  · rw [processCandidate, if_neg]
    rw [hm]
    norm_num [similarityThreshold]

/-- Claim C5 (amended): the plagiarism worker stores a report row
exactly when the blended similarity W = 0.4·J + 0.6·max(C_A, C_B) is
≥ τ where τ is the hardcoded constant 0.75 (not configurable); the
stored row carries the ordered pair (min(a,b), max(a,b)) and all four
scores, and storing has upsert semantics: re-running for the same
ordered pair replaces the row instead of duplicating it. -/
theorem C5_report_threshold (newID otherID : Nat) (newFp otherFp : Finset Nat)
    (tbl : List PlagiarismReport) :
    ((processCandidate newID otherID newFp otherFp).isSome = true ↔
      (calculateAllSimilarityMetrics newFp otherFp).1 ≥ similarityThreshold) ∧
    (∀ r, processCandidate newID otherID newFp otherFp = some r →
      r.submission_a = min newID otherID ∧ r.submission_b = max newID otherID ∧
      r.similarity = (calculateAllSimilarityMetrics newFp otherFp).1 ∧
      r.jaccard = (calculateAllSimilarityMetrics newFp otherFp).2.1 ∧
      r.containment_a_in_b = (calculateAllSimilarityMetrics newFp otherFp).2.2.1 ∧
      r.containment_b_in_a = (calculateAllSimilarityMetrics newFp otherFp).2.2.2) ∧
    (∀ r r' : PlagiarismReport, r.submission_a = r'.submission_a →
      r.submission_b = r'.submission_b →
      upsertReport (upsertReport tbl r) r' = upsertReport tbl r') := by
  refine ⟨?_, ?_, ?_⟩
  · by_cases hτ : (calculateAllSimilarityMetrics newFp otherFp).1 ≥ similarityThreshold
    · simp [processCandidate, hτ]
    · simp [processCandidate, hτ]
  · intro r hr
    by_cases hτ : (calculateAllSimilarityMetrics newFp otherFp).1 ≥ similarityThreshold
    · rw [processCandidate] at hr
      simp only [hτ, if_true] at hr
      injection hr with hr2
      subst hr2
      by_cases hgt : newID > otherID
      · refine ⟨?_, ?_, rfl, rfl, rfl, rfl⟩ <;> simp [hgt] <;> omega
      · refine ⟨?_, ?_, rfl, rfl, rfl, rfl⟩ <;> simp [hgt] <;> omega
    · rw [processCandidate] at hr
      simp [hτ] at hr
  · intro r r' ha hb
    induction tbl with
    | nil => simp [upsertReport, ha, hb]
    | cons x rest ih =>
        by_cases hx : x.submission_a = r.submission_a ∧ x.submission_b = r.submission_b
        · have h1 : upsertReport (x :: rest) r = r :: rest := by
            rw [upsertReport, if_pos hx]
          have h2 : upsertReport (x :: rest) r' = r' :: rest := by
            rw [upsertReport, if_pos ⟨hx.1.trans ha, hx.2.trans hb⟩]
          have h3 : upsertReport (r :: rest) r' = r' :: rest := by
            rw [upsertReport, if_pos ⟨ha, hb⟩]
          rw [h1, h3, h2]
        · have hx' : ¬(x.submission_a = r'.submission_a ∧
              x.submission_b = r'.submission_b) := by
            intro hc
            exact hx ⟨hc.1.trans ha.symm, hc.2.trans hb.symm⟩
          have h1 : upsertReport (x :: rest) r = x :: upsertReport rest r := by
            rw [upsertReport, if_neg hx]
          have h2 : upsertReport (x :: rest) r' = x :: upsertReport rest r' := by
            rw [upsertReport, if_neg hx']
          have h3 : upsertReport (x :: upsertReport rest r) r' =
              x :: upsertReport (upsertReport rest r) r' := by
            rw [upsertReport, if_neg hx']
          rw [h1, h3, ih, h2]

/-- Witness for C5 (amended): identical singleton fingerprints score
W = 1 ≥ 0.75 and a report is stored. -/
theorem C5_report_threshold_witness :
    (processCandidate 2 1 {1} {1}).isSome = true := by
  refine (C5_report_threshold 2 1 {1} {1} []).1.mpr ?_
  have h : (calculateAllSimilarityMetrics ({1} : Finset Nat) {1}).1 = 1 := by
    have hA : ({1} : Finset Nat).card = 1 := rfl
    have hI : (({1} : Finset Nat) ∩ {1}).card = 1 := rfl
    simp only [calculateAllSimilarityMetrics, hA, hI]
    norm_num
  rw [h]
  norm_num [similarityThreshold]

/-- One LSH hash table, as the Go `map[uint64][]int`: bucket key to the
list of submission ids appended to it. -/
def Bucket : Type := List (Nat × List Nat)

/-- Go map read `lsh.hashTables[t][bandHash]`: the bucket's id list, or
nil when the key is absent. -/
def bucketGet : Bucket → Nat → List Nat
  | [], _ => []
  | (k', v) :: rest, k => if k' = k then v else bucketGet rest k

/-- Go map write `m[k] = append(m[k], id)`: append to the existing
bucket, or create the bucket `[id]` when the key is absent. -/
def bucketAppend : Bucket → Nat → Nat → Bucket
  | [], k, id => [(k, [id])]
  | (k', v) :: rest, k, id =>
      if k' = k then (k', v ++ [id]) :: rest
      else (k', v) :: bucketAppend rest k id

/-- `LSHIndex` of `src/unnamed/part_005`. -/
structure LSHIndex where
  hashTables : List Bucket
  numTables : Nat
  bandSize : Nat

/-- `NewLSHIndex` of `src/unnamed/part_005`: `numTables` empty tables. -/
def NewLSHIndex (numTables bandSize : Nat) : LSHIndex :=
  { hashTables := List.replicate numTables []
    numTables := numTables
    bandSize := bandSize }

/-- The Go slice expression `fpSlice[startIdx:endIdx]`. -/
def bandSlice (l : List Nat) (s e : Nat) : List Nat :=
  (l.drop s).take (e - s)

/-- `hashBand` of `src/unnamed/part_005`: FNV-1a over the band's
64-bit elements. -/
def hashBand (band : List Nat) : Nat :=
  band.foldl (fun h v => ((h ^^^ v) * fnvPrime) % M64) fnvOffset

/-- `hashBandOptimized` of `src/unnamed/part_005`: 0 for an empty band,
else the same FNV-1a fold. -/
def hashBandOptimized (band : List Nat) : Nat :=
  if band = [] then 0
  else band.foldl (fun h v => ((h ^^^ v) * fnvPrime) % M64) fnvOffset

/-- Core of `LSHIndex.AddSubmission`, on the already-sorted fingerprint
slice: for each table t, band t spans indices
`[t*n/T, (t+1)*n/T)`; nonempty bands are hashed with `hashBand` and the
submission id is appended to that bucket. -/
def addSubmissionSlice (lsh : LSHIndex) (submissionID : Nat)
    (fpSlice : List Nat) : LSHIndex :=
  { lsh with hashTables :=
      (List.range lsh.numTables).map (fun tableIdx =>
        let s := (tableIdx * fpSlice.length) / lsh.numTables
        let e := ((tableIdx + 1) * fpSlice.length) / lsh.numTables
        if s < e then
          bucketAppend (lsh.hashTables.getD tableIdx [])
            (hashBand (bandSlice fpSlice s e)) submissionID
        else lsh.hashTables.getD tableIdx []) }

/-- `LSHIndex.AddSubmission` of `src/unnamed/part_005`: sort the
fingerprint's hashes ascending, then band and insert. -/
def AddSubmission (lsh : LSHIndex) (submissionID : Nat)
    (fingerprint : Finset Nat) : LSHIndex :=
  addSubmissionSlice lsh submissionID (fingerprint.sort (· ≤ ·))

/-- Core of `LSHIndex.FindSimilarSubmissions`, on the sorted slice: the
band size is `n/T` (at least 1), band t starts at `t*bandSize` and the
last table's band absorbs the remainder; each in-range band is hashed
with `hashBandOptimized` and the matching bucket's ids are collected. -/
def findSimilarCandidatesSlice (lsh : LSHIndex) (fpSlice : List Nat) :
    List Nat :=
  (List.range lsh.numTables).flatMap (fun tableIdx =>
    let bs0 := fpSlice.length / lsh.numTables
    let bs := if bs0 = 0 then 1 else bs0
    let s := tableIdx * bs
    let e := if tableIdx = lsh.numTables - 1 then fpSlice.length else s + bs
    if s < fpSlice.length ∧ s < e then
      bucketGet (lsh.hashTables.getD tableIdx [])
        (hashBandOptimized (bandSlice fpSlice s e))
    else [])

/-- Candidate collection of `LSHIndex.FindSimilarSubmissions` of
`src/unnamed/part_005` (before vote counting and the top-k cut): nil
for an empty fingerprint, else probe each table's bucket. -/
def FindSimilarCandidates (lsh : LSHIndex) (fingerprint : Finset Nat) :
    List Nat :=
  if fingerprint.card = 0 then []
  else findSimilarCandidatesSlice lsh (fingerprint.sort (· ≤ ·))

/-- The T band hashes `AddSubmission` computes (`none` marks a skipped
empty band). -/
def insertBandHashesSlice (l : List Nat) (T : Nat) : List (Option Nat) :=
  (List.range T).map (fun t =>
    let s := (t * l.length) / T
    let e := ((t + 1) * l.length) / T
    if s < e then some (hashBand (bandSlice l s e)) else none)

/-- The T band hashes `FindSimilarSubmissions` computes (`none` marks a
skipped out-of-range band). -/
def queryBandHashesSlice (l : List Nat) (T : Nat) : List (Option Nat) :=
  (List.range T).map (fun t =>
    let bs0 := l.length / T
    let bs := if bs0 = 0 then 1 else bs0
    let s := t * bs
    let e := if t = T - 1 then l.length else s + bs
    if s < l.length ∧ s < e then
      some (hashBandOptimized (bandSlice l s e))
    else none)

theorem hashBandOptimized_eq {band : List Nat} (h : band ≠ []) :
    hashBandOptimized band = hashBand band := by
  rw [hashBandOptimized, if_neg h, hashBand]

theorem bucketGet_bucketAppend_self (tbl : Bucket) (k id : Nat) :
    id ∈ bucketGet (bucketAppend tbl k id) k := by
  induction tbl with
  | nil => simp [bucketAppend, bucketGet]
  | cons p rest ih =>
      rcases p with ⟨k', v⟩
      by_cases hp : k' = k
      · rw [bucketAppend, if_pos hp, bucketGet, if_pos hp]
        simp
      · rw [bucketAppend, if_neg hp, bucketGet, if_neg hp]
        exact ih

theorem getD_map_range {α : Type} (f : Nat → α) {T t : Nat} (ht : t < T)
    (d : α) : ((List.range T).map f).getD t d = f t := by
  rw [List.getD_eq_getElem?_getD, List.getElem?_map, List.getElem?_range ht]
  rfl

/-- The five-hash fingerprint of the C4 counterexample, as a list. -/
def fpC4List : List Nat := [10, 20, 30, 40, 50]

/-- The five-hash fingerprint of the C4 counterexample. -/
def fpC4 : Finset Nat := fpC4List.toFinset

/-- Counterexample to claim C4: with the default 20 tables a
just-added 5-hash fingerprint occupies table 3's bucket (insertion
bands the sorted slice by `[t*n/T, (t+1)*n/T)`), yet the lookup (fixed
band size `max(n/T, 1)` with a last-band remainder) probes different
band hashes, and the query over the very fingerprint that was just
inserted returns no candidates at all. -/
theorem C4_counterexample :
    (∃ k, 42 ∈ bucketGet
        ((AddSubmission (NewLSHIndex 20 10) 42 fpC4).hashTables.getD 3 []) k) ∧
    FindSimilarCandidates (AddSubmission (NewLSHIndex 20 10) 42 fpC4) fpC4
      = [] := by
  have hs : fpC4.sort (· ≤ ·) = fpC4List :=
    (List.toFinset_sort (· ≤ ·) (by decide)).mpr (by decide)
  constructor
  · refine ⟨hashBand (bandSlice fpC4List 0 1), ?_⟩
    rw [AddSubmission, hs]
    decide
  · rw [FindSimilarCandidates, if_neg (by decide), AddSubmission, hs]
    decide

/-- When the slice length is a positive multiple of the table count,
the lookup banding coincides with the insertion banding. -/
theorem bandHashes_agree {T m : Nat} (hT : 0 < T) (hm : 0 < m)
    (l : List Nat) (hlen : l.length = m * T) :
    queryBandHashesSlice l T = insertBandHashesSlice l T := by
  rw [queryBandHashesSlice, insertBandHashesSlice]
  apply List.map_congr_left
  intro t htm
  rw [List.mem_range] at htm
  dsimp only
  have hbs : l.length / T = m := by rw [hlen, Nat.mul_div_cancel _ hT]
  have hs : (t * l.length) / T = t * m := by
    rw [hlen, show t * (m * T) = t * m * T by ring, Nat.mul_div_cancel _ hT]
  have he : ((t + 1) * l.length) / T = (t + 1) * m := by
    rw [hlen, show (t + 1) * (m * T) = (t + 1) * m * T by ring,
      Nat.mul_div_cancel _ hT]
  have h3 : (t + 1) * m = t * m + m := by ring
  have h1 : (t + 1) * m ≤ T * m := Nat.mul_le_mul_right m htm
  have h2 : T * m = l.length := by rw [hlen, Nat.mul_comm]
  rw [hbs, if_neg hm.ne', hs, he]
  have he_q : (if t = T - 1 then l.length else t * m + m) = (t + 1) * m := by
    by_cases hlast : t = T - 1
    · rw [if_pos hlast]
      have ht1 : t + 1 = T := by omega
      rw [← h2, ← ht1]
    · rw [if_neg hlast]
      omega
  rw [he_q]
  have hband : bandSlice l (t * m) ((t + 1) * m) ≠ [] := by
    have hpos : 0 < (bandSlice l (t * m) ((t + 1) * m)).length := by
      rw [bandSlice, List.length_take, List.length_drop]
      omega
    exact List.ne_nil_of_length_pos hpos
  rw [if_pos ⟨by omega, by omega⟩, if_pos (by omega)]
  rw [hashBandOptimized_eq hband]

/-- Claim C4 (amended): insertion partitions the sorted hash list by
`[t*n/T, (t+1)*n/T)` (skipping empty bands) while lookup uses the fixed
band size `max(n/T, 1)` with the last band absorbing the remainder;
the two schemes coincide whenever the fingerprint size is a positive
multiple of T, and then querying with the fingerprint of a just-added
submission finds that submission in the probed bucket of every table. -/
theorem C4_lookup_matches_insertion (T m : Nat) (hT : 0 < T) (hm : 0 < m)
    (fp : Finset Nat) (hcard : fp.card = m * T) (lsh : LSHIndex)
    (hnum : lsh.numTables = T) (id : Nat) :
    queryBandHashesSlice (fp.sort (· ≤ ·)) T
      = insertBandHashesSlice (fp.sort (· ≤ ·)) T ∧
    (∀ t, t < T → ∃ k,
      (queryBandHashesSlice (fp.sort (· ≤ ·)) T).getD t none = some k ∧
      id ∈ bucketGet ((AddSubmission lsh id fp).hashTables.getD t []) k) := by
  have hlen : (fp.sort (· ≤ ·)).length = m * T := by
    rw [Finset.length_sort, hcard]
  refine ⟨bandHashes_agree hT hm _ hlen, ?_⟩
  intro t ht
  set l := fp.sort (· ≤ ·) with hl
  have hs : (t * l.length) / T = t * m := by
    rw [hlen, show t * (m * T) = t * m * T by ring, Nat.mul_div_cancel _ hT]
  have he : ((t + 1) * l.length) / T = (t + 1) * m := by
    rw [hlen, show (t + 1) * (m * T) = (t + 1) * m * T by ring,
      Nat.mul_div_cancel _ hT]
  have h3 : (t + 1) * m = t * m + m := by ring
  have h1 : (t + 1) * m ≤ T * m := Nat.mul_le_mul_right m ht
  have h2 : T * m = l.length := by rw [hlen, Nat.mul_comm]
  refine ⟨hashBand (bandSlice l (t * m) ((t + 1) * m)), ?_, ?_⟩
  · rw [bandHashes_agree hT hm _ hlen, insertBandHashesSlice,
      getD_map_range _ ht]
    dsimp only
    rw [hs, he, if_pos (by omega)]
  · rw [AddSubmission, addSubmissionSlice]
    dsimp only
    rw [hnum, ← hl, getD_map_range _ ht]
    rw [hs, he, if_pos (by omega)]
    exact bucketGet_bucketAppend_self _ _ _

/-- Witness for C4 (amended): a two-hash fingerprint in a 2-table
index; the just-added id is found in table 0's probed bucket. -/
theorem C4_lookup_matches_insertion_witness :
    ∃ k, (queryBandHashesSlice (({5, 9} : Finset Nat).sort (· ≤ ·)) 2).getD 0 none
        = some k ∧
      7 ∈ bucketGet ((AddSubmission (NewLSHIndex 2 10) 7 {5, 9}).hashTables.getD 0 []) k :=
  (C4_lookup_matches_insertion 2 1 (by decide) (by decide) {5, 9} rfl
    (NewLSHIndex 2 10) rfl 7).2 0 (by decide)
